import Mathlib

set_option maxHeartbeats 1000000

/-!
Verification development for the kultscraper concurrent scraping engine.

The definitions below are a shallow embedding of the Go source:
* `internal/config/config.go` — task descriptors,
* `internal/models/models.go` — scraping results,
* `internal/scraper/scraper.go` — the page pool (`getPage` / `releasePage`),
  the extraction pipeline (`RodScraper.Scrape`) and the task wrapper
  (`TaskToScrape.Execute`),
* `internal/lib/work/work.go` — the worker pool lifecycle.

External effects (browser automation, real time) are modelled by oracles:
a `PageOracle` fixes the outcome of every navigate / wait-load / query /
extract-text call, and a `Ctx` fixes at which cancellation check a Go
context is first observed as done (contexts are monotone, so the index of
the first check that sees `ctx.Done()` fully describes one).
-/

namespace Kult

/-! ## Association-list model of Go string maps -/

/-- Lookup in a Go `map[string]string`, modelled as an association list. -/
def mapGet (m : List (String × String)) (k : String) : Option String :=
  match m with
  | [] => none
  | (k', v) :: rest => if k' = k then some v else mapGet rest k

/-- Assignment `m[k] = v` on a Go `map[string]string`: overwrite the
binding if the key is present, otherwise append a new binding. -/
def mapSet (m : List (String × String)) (k v : String) : List (String × String) :=
  match m with
  | [] => [(k, v)]
  | (k', v') :: rest => if k' = k then (k, v) :: rest else (k', v') :: mapSet rest k v

/-! ## Go contexts

A Go context, once done, stays done.  `cancelAt = some n` means the n-th
cancellation check (0-indexed, counting the checks the code actually
performs) and every later one observes `ctx.Done()`; `none` means the
context never fires during the run. -/

/-- Cancellation behaviour of one Go context over the run's checks. -/
structure Ctx where
  cancelAt : Option Nat
deriving Repr, DecidableEq

/-- Whether the check with index `t` observes the context as done. -/
def ctxDone (c : Ctx) (t : Nat) : Bool :=
  match c.cancelAt with
  | none => false
  | some n => decide (n ≤ t)

/-- The context obtained by `context.WithTimeout(parent, d)`: done as soon
as either the parent is done or the budget expires. -/
def ctxCombine (a b : Ctx) : Ctx :=
  ⟨match a.cancelAt, b.cancelAt with
   | none, o => o
   | some m, none => some m
   | some m, some n => some (min m n)⟩

/-! ## Task descriptors (`config.ScraperTask`)

Go's `Selectors` field is a `map[string]string`; we keep the descriptor's
field list (the order the fields are presented by the descriptor, e.g. the
order in the JSON document) as an association list.  The runtime iterates
the map in an unspecified order, so the pipeline below takes the actual
iteration order as a separate list, constrained to be a permutation of the
descriptor's entries where a statement needs it. -/

/-- Descriptor of one scraping task (`config.ScraperTask`). -/
structure ScraperTask where
  url : String
  type : String
  name : String
  selectors : List (String × String)
deriving Repr, DecidableEq

/-! ## Results (`models.ScrapingResult`)

Mongo object ids and the metadata map play no role in the claims; the
creation time is abstracted to a natural number supplied by the caller. -/

/-- Result of one scraping attempt (`models.ScrapingResult`). -/
structure ScrapingResult where
  url : String
  type : String
  name : String
  data : List (String × String)
  createdAt : Nat
  updatedAt : Nat
deriving Repr, DecidableEq

/-- Constructor `models.NewScrapingResult`: both timestamps are set to the
current time. -/
def NewScrapingResult (url scrapeType name : String)
    (data : List (String × String)) (now : Nat) : ScrapingResult :=
  { url := url, type := scrapeType, name := name, data := data
    createdAt := now, updatedAt := now }

/-! ## The page pool (`RodScraper.getPage` / `releasePage`)

`RodScraper` keeps a `sync.Pool` of pages, a ceiling `maxPageCount` and a
live counter `activePages`, all mutations serialized by a mutex, so the
pool evolves by atomic `getPage` / `releasePage` steps.  A page is just an
id; `newOk` says whether the `sync.Pool`'s `New` function (which calls
`stealth.Page`) succeeds or returns nil. -/

/-- Reasons `getPage` can fail. -/
inductive PoolErr where
  /-- Go error "maximum number of active pages reached". -/
  | capacity
  /-- Go error "failed to get page from pool" (the constructor returned nil). -/
  | newFailed
deriving Repr, DecidableEq

/-- The pool-related state of a `RodScraper`. -/
structure PagePool where
  maxPageCount : Int
  activePages : Int
  freePages : List Nat
  nextId : Nat
  newOk : Bool
deriving Repr, DecidableEq

/-- `sync.Pool.Get`: take a free page if one is cached, otherwise call the
`New` constructor, which may fail (return `none`, Go nil). -/
def poolGet (p : PagePool) : Option Nat × PagePool :=
  match p.freePages with
  | pg :: rest => (some pg, { p with freePages := rest })
  | [] =>
    if p.newOk then (some p.nextId, { p with nextId := p.nextId + 1 })
    else (none, p)

/-- `NewRodScraper`: a non-positive `maxPages` falls back to the default
ceiling 10; the pool starts empty with no active pages. -/
def NewRodScraper (maxPages : Int) (newOk : Bool) : PagePool :=
  { maxPageCount := if maxPages ≤ 0 then 10 else maxPages
    activePages := 0
    freePages := []
    nextId := 0
    newOk := newOk }

/-- `RodScraper.getPage`: fail fast at the ceiling, otherwise draw from the
`sync.Pool`; only a successful draw increments `activePages`. -/
def getPage (r : PagePool) : Except PoolErr Nat × PagePool :=
  if r.maxPageCount ≤ r.activePages then (.error .capacity, r)
  else
    match poolGet r with
    | (none, r') => (.error .newFailed, r')
    | (some pg, r') => (.ok pg, { r' with activePages := r'.activePages + 1 })

/-- `RodScraper.releasePage`: reset the page (navigate to about:blank, no
pool-state effect), return it to the free set and decrement the counter. -/
def releasePage (r : PagePool) (pg : Nat) : PagePool :=
  { r with freePages := pg :: r.freePages, activePages := r.activePages - 1 }

/-- One atomic mutation of the pool state: the mutex in `getPage` /
`releasePage` serializes all accesses, so concurrent use is an arbitrary
interleaving of these two steps. -/
inductive PStep : PagePool → PagePool → Prop where
  | get (r : PagePool) : PStep r (getPage r).2
  | release (r : PagePool) (pg : Nat) : PStep r (releasePage r pg)

/-- Pool states reachable from a given state by acquire/release steps. -/
abbrev PoolReach (a b : PagePool) : Prop := Relation.ReflTransGen PStep a b

/-! ## The extraction pipeline (`RodScraper.Scrape`)

The browser-automation capability is an oracle: it fixes whether
navigation and wait-for-load succeed, and for each selector the outcome of
the element query — `none` models a query error, `some elems` models a
successful query whose matches are listed in match order, each carrying
the outcome of its `Text()` call under the 2-second text sub-deadline
(`none` = extraction failure). -/

/-- Deterministic model of the `rod` page operations used by `Scrape`. -/
structure PageOracle where
  navigateOk : String → Bool
  waitLoadOk : Bool
  elements : String → Option (List (Option String))

/-- Errors a `Scrape` call can return. -/
inductive ScrapeErr where
  /-- `ErrContextCancelled`, returned by the check at the top of `Scrape`. -/
  | cancelledEarly
  /-- `ctx.Err()`, returned by the checks inside the selector and element loops. -/
  | ctxErr
  /-- Error propagated unchanged from `getPage`. -/
  | pool (e : PoolErr)
  /-- `page.Navigate` failed (under the 15-second navigation sub-deadline). -/
  | navigate
  /-- `page.WaitLoad` failed. -/
  | waitLoad
deriving Repr, DecidableEq

/-- The element loop of `Scrape` for one selector: walk the matched
elements in match order, checking the context before each one; a failed
`Text()` call is skipped, a successful one is appended.  Returns the
running check counter and `none` when a check observed cancellation
(the Go code then returns the partial result with `ctx.Err()`). -/
def extractTexts (c : Ctx) : Nat → List (Option String) → List String →
    Nat × Option (List String)
  | t, [], acc => (t, some acc.reverse)
  | t, e :: rest, acc =>
    if ctxDone c t then (t + 1, none)
    else
      match e with
      | some s => extractTexts c (t + 1) rest (s :: acc)
      | none => extractTexts c (t + 1) rest acc

/-- The selector loop of `Scrape`: for each (field, selector) pair in the
runtime's iteration order, check the context, then either store the empty
string (empty selector, query error, zero matches) or the newline-joined
extracted texts.  On an observed cancellation the accumulated `data` and
`ctx.Err()` are returned. -/
def scrapeLoop (oracle : PageOracle) (c : Ctx) :
    Nat → List (String × String) → List (String × String) →
    List (String × String) × Option ScrapeErr
  | _, [], data => (data, none)
  | t, (key, selector) :: rest, data =>
    if ctxDone c t then (data, some .ctxErr)
    else if selector = "" then scrapeLoop oracle c (t + 1) rest (mapSet data key "")
    else
      match oracle.elements selector with
      | none => scrapeLoop oracle c (t + 1) rest (mapSet data key "")
      | some elems =>
        if elems.isEmpty then scrapeLoop oracle c (t + 1) rest (mapSet data key "")
        else
          match extractTexts c (t + 1) elems [] with
          | (_, none) => (data, some .ctxErr)
          | (t', some texts) =>
            scrapeLoop oracle c t' rest (mapSet data key (String.intercalate "\n" texts))

/-- Everything observable about one `Scrape` call: the returned result and
error, the pool state after the call, and how many times a page was
acquired and released during the call. -/
structure ScrapeOut where
  result : Option ScrapingResult
  error : Option ScrapeErr
  pool : PagePool
  acquires : Nat
  releases : Nat
deriving Repr, DecidableEq

/-- `RodScraper.Scrape`: check the context, acquire a page (failing fast),
navigate and wait for load (each failure releasing the page via the
deferred `releasePage`), then run the selector loop; every exit path after
acquisition releases the page exactly once.  `iter` is the order in which
the Go runtime iterates the descriptor's selector map. -/
def Scrape (pool : PagePool) (oracle : PageOracle) (c : Ctx) (now : Nat)
    (task : ScraperTask) (iter : List (String × String)) : ScrapeOut :=
  if ctxDone c 0 then
    { result := none, error := some .cancelledEarly, pool := pool
      acquires := 0, releases := 0 }
  else
    match getPage pool with
    | (.error e, pool') =>
      { result := none, error := some (.pool e), pool := pool'
        acquires := 0, releases := 0 }
    | (.ok pg, pool') =>
      if oracle.navigateOk task.url = false then
        { result := none, error := some .navigate, pool := releasePage pool' pg
          acquires := 1, releases := 1 }
      else if oracle.waitLoadOk = false then
        { result := none, error := some .waitLoad, pool := releasePage pool' pg
          acquires := 1, releases := 1 }
      else
        match scrapeLoop oracle c 1 iter [] with
        | (data, some e) =>
          { result := some (NewScrapingResult task.url task.type task.name data now)
            error := some e, pool := releasePage pool' pg
            acquires := 1, releases := 1 }
        | (data, none) =>
          { result := some (NewScrapingResult task.url task.type task.name data now)
            error := none, pool := releasePage pool' pg
            acquires := 1, releases := 1 }

/-- `TaskToScrape.Execute`: wrap the caller's context with the 30-second
task budget (`ctxCombine parent budget`), delegate to `Scrape`, and on a
non-nil error return `(nil, err)` — note the result is dropped in that
case. -/
def Execute (pool : PagePool) (oracle : PageOracle) (parent budget : Ctx)
    (now : Nat) (task : ScraperTask) (iter : List (String × String)) :
    Option ScrapingResult × Option ScrapeErr :=
  let out := Scrape pool oracle (ctxCombine parent budget) now task iter
  match out.error with
  | some e => (none, some e)
  | none => (out.result, none)

/-! ## Cancellation-free field semantics

`fieldValue` is the value `Scrape` stores for a field it processes without
observing a cancellation; `fieldsOf` maps it over a list of descriptor
pairs. -/

/-- Value extracted for one (field, selector) pair when no cancellation is
observed while the pair is processed. -/
def fieldValue (oracle : PageOracle) (selector : String) : String :=
  if selector = "" then ""
  else
    match oracle.elements selector with
    | none => ""
    | some elems =>
      if elems.isEmpty then ""
      else String.intercalate "\n" (elems.filterMap id)

/-- The bindings produced by processing the given pairs in order, without
cancellation. -/
def fieldsOf (oracle : PageOracle) (l : List (String × String)) :
    List (String × String) :=
  l.map (fun p => (p.1, fieldValue oracle p.2))

/-- Folding `mapSet` over a list of pairs, assigning each its
cancellation-free value — the shape of the data map built by the loop. -/
def processList (oracle : PageOracle) (data : List (String × String)) :
    List (String × String) → List (String × String)
  | [] => data
  | (key, sel) :: rest =>
    processList oracle (mapSet data key (fieldValue oracle sel)) rest

/-! ## The worker pool (`work.Pool`)

The pool is shared mutable state (channels, waitgroup, flags) driven
concurrently by the workers, the stopping goroutine and the run-level
token.  We model one configuration of the whole system — the `Pool` struct
plus each goroutine's control point — and its interleaved execution as a
small-step transition relation `WStep`.  A task is abstracted to the only
two things the pool observes about it: an id and whether its `Execute`
call returns an error. -/

/-- Abstraction of one `Executor`: its id and whether `Execute` succeeds. -/
structure Tsk where
  id : Nat
  ok : Bool
deriving Repr, DecidableEq

/-- Control point of one worker goroutine: in its main select loop,
blocked on sending a produced result, or exited. -/
inductive WPhase where
  | running
  | sending (res : Nat)
  | done
deriving Repr, DecidableEq

/-- Control point of the goroutine executing `Stop`: not yet called,
just past the started-flag check, past `p.cancel()`, past
`close(p.tasks)`, returned after `close(p.results)`, or returned early
because the pool was not started. -/
inductive StopPhase where
  | stIdle
  | stChecked
  | stCancelled
  | stClosedTasks
  | stFinished
  | stEarly
deriving Repr, DecidableEq

/-- One configuration of the worker-pool system: the `Pool` struct's
fields (flags, both channels with the task queue's buffer contents), the
workers' and the stopper's control points, and a ghost log of executed
task ids plus a ghost counter of `close(p.results)` calls. -/
structure Conf where
  numWorkers : Nat
  queueCap : Nat
  started : Bool
  ctxCancelled : Bool
  tasksClosed : Bool
  queue : List Tsk
  resultsBuf : List Nat
  resultsClosed : Bool
  resultsCloseCount : Nat
  workers : List WPhase
  stopPhase : StopPhase
  executed : List Nat
deriving Repr, DecidableEq

/-- `work.NewPool` / `NewPoolWithLogger`: reject non-positive parameters,
otherwise allocate both buffered channels and start in the idle state with
no workers. -/
def NewPool (numWorkers taskChannelSize : Int) : Except String Conf :=
  if numWorkers ≤ 0 ∨ taskChannelSize ≤ 0 then
    .error "invalid parameters: number of workers and tasks must be more than zero"
  else
    .ok { numWorkers := numWorkers.toNat
          queueCap := taskChannelSize.toNat
          started := false
          ctxCancelled := false
          tasksClosed := false
          queue := []
          resultsBuf := []
          resultsClosed := false
          resultsCloseCount := 0
          workers := []
          stopPhase := .stIdle
          executed := [] }

/-- `Pool.Start`: under the mutex, fail if already started; otherwise
derive the pool context from the parent (done iff the parent already is),
launch `numWorkers` workers and set the started flag.  The pair mirrors
Go's (error, state after the call). -/
def startFn (s : Conf) (parentCancelled : Bool) : Option String × Conf :=
  if s.started then (some "pool already started", s)
  else
    (none, { s with started := true
                    ctxCancelled := parentCancelled
                    workers := List.replicate s.numWorkers WPhase.running })

/-- The mutex-protected prologue of `Pool.Stop` (work.go lines 94-100):
if the pool is not started, return immediately (`false`, state untouched);
otherwise clear the flag and proceed (`true`). -/
def stopCheck (s : Conf) : Bool × Conf :=
  if s.started then (true, { s with started := false }) else (false, s)

/-- `Pool.AddTask`: fail when not started; otherwise enqueue when the
bounded queue has room (the blocking case is not needed by any claim). -/
def addTask (s : Conf) (t : Tsk) : Option String × Conf :=
  if s.started = false then (some "pool not started", s)
  else if s.queue.length < s.queueCap then (none, { s with queue := s.queue ++ [t] })
  else (some "queue full", s)

/-- Interleaved small-step semantics of the pool.  Worker steps follow the
`select` in `Pool.worker`: when the context is done a worker may exit even
if tasks are still queued (Go's `select` picks any ready branch); a
dequeued failing task goes to `OnError` and the worker continues; a
dequeued successful task moves the worker to the result-send, which either
buffers the result or abandons it when the context is done.  Stopper steps
follow `Pool.Stop` line by line; the final step fuses `wg.Wait()` with the
`close(p.results)` that immediately follows it, so it fires only once all
workers are done.  `extCancel` is the run-level parent token firing. -/
inductive WStep : Conf → Conf → Prop where
  | wCancel (s : Conf) (i : Nat)
      (hw : s.workers[i]? = some .running) (hc : s.ctxCancelled = true) :
      WStep s { s with workers := s.workers.set i .done }
  | wClosed (s : Conf) (i : Nat)
      (hw : s.workers[i]? = some .running) (hq : s.queue = [])
      (ht : s.tasksClosed = true) :
      WStep s { s with workers := s.workers.set i .done }
  | wTakeOk (s : Conf) (i : Nat) (t : Tsk) (rest : List Tsk)
      (hw : s.workers[i]? = some .running) (hq : s.queue = t :: rest)
      (hok : t.ok = true) :
      WStep s { s with queue := rest, executed := s.executed ++ [t.id]
                       workers := s.workers.set i (.sending t.id) }
  | wTakeErr (s : Conf) (i : Nat) (t : Tsk) (rest : List Tsk)
      (hw : s.workers[i]? = some .running) (hq : s.queue = t :: rest)
      (hok : t.ok = false) :
      WStep s { s with queue := rest, executed := s.executed ++ [t.id] }
  | wSend (s : Conf) (i : Nat) (r : Nat)
      (hw : s.workers[i]? = some (.sending r))
      (hroom : s.resultsBuf.length < s.queueCap) :
      WStep s { s with resultsBuf := s.resultsBuf ++ [r]
                       workers := s.workers.set i .running }
  | wSendCancel (s : Conf) (i : Nat) (r : Nat)
      (hw : s.workers[i]? = some (.sending r)) (hc : s.ctxCancelled = true) :
      WStep s { s with workers := s.workers.set i .done }
  | extCancel (s : Conf) :
      WStep s { s with ctxCancelled := true }
  | stopBegin (s : Conf)
      (hp : s.stopPhase = .stIdle) (hs : s.started = true) :
      WStep s { s with started := false, stopPhase := .stChecked }
  | stopEarlyStep (s : Conf)
      (hp : s.stopPhase = .stIdle) (hs : s.started = false) :
      WStep s { s with stopPhase := .stEarly }
  | stopCancel (s : Conf) (hp : s.stopPhase = .stChecked) :
      WStep s { s with ctxCancelled := true, stopPhase := .stCancelled }
  | stopCloseTasks (s : Conf) (hp : s.stopPhase = .stCancelled) :
      WStep s { s with tasksClosed := true, stopPhase := .stClosedTasks }
  | stopFinish (s : Conf) (hp : s.stopPhase = .stClosedTasks)
      (hall : ∀ w ∈ s.workers, w = WPhase.done) :
      WStep s { s with resultsClosed := true
                       resultsCloseCount := s.resultsCloseCount + 1
                       stopPhase := .stFinished }

/-- Configurations reachable by interleaved execution. -/
abbrev WReach (a b : Conf) : Prop := Relation.ReflTransGen WStep a b

/-- The configuration of a freshly built and started pool with the given
tasks already submitted: what `NewPool`, a successful `Start` on a live
parent context and a sequence of successful `AddTask` calls produce. -/
def initConf (n cap : Nat) (ts : List Tsk) : Conf :=
  { numWorkers := n
    queueCap := cap
    started := true
    ctxCancelled := false
    tasksClosed := false
    queue := ts
    resultsBuf := []
    resultsClosed := false
    resultsCloseCount := 0
    workers := List.replicate n WPhase.running
    stopPhase := .stIdle
    executed := [] }

/-! ## Lemmas about the map model -/

theorem mapGet_nil (k : String) : mapGet [] k = none := rfl

theorem mapGet_eq_none_iff (m : List (String × String)) (k : String) :
    mapGet m k = none ↔ k ∉ m.map Prod.fst := by
  induction m with
  | nil => simp [mapGet]
  | cons p rest ih =>
    obtain ⟨k', v⟩ := p
    by_cases h : k' = k <;> simp [mapGet, h, ih, Ne.symm]

theorem mapGet_append_of_none (a b : List (String × String)) (k : String)
    (h : mapGet a k = none) : mapGet (a ++ b) k = mapGet b k := by
  induction a with
  | nil => simp
  | cons p rest ih =>
    obtain ⟨k', v⟩ := p
    simp only [mapGet] at h
    rcases Decidable.em (k' = k) with hk | hk
    · simp [hk] at h
    · simp only [List.cons_append, mapGet, if_neg hk]
      exact ih (by simpa [hk] using h)

theorem mapSet_of_get_none (m : List (String × String)) (k v : String)
    (h : mapGet m k = none) : mapSet m k v = m ++ [(k, v)] := by
  induction m with
  | nil => rfl
  | cons p rest ih =>
    obtain ⟨k', v'⟩ := p
    simp only [mapGet] at h
    rcases Decidable.em (k' = k) with hk | hk
    · simp [hk] at h
    · simp only [mapSet, if_neg hk, List.cons_append, List.cons.injEq, true_and]
      exact ih (by simpa [hk] using h)

/-! ## Lemmas about the extraction loops -/

theorem extractTexts_eq_some (c : Ctx) (elems : List (Option String)) :
    ∀ (t : Nat) (acc : List String) (t' : Nat) (texts : List String),
      extractTexts c t elems acc = (t', some texts) →
      texts = acc.reverse ++ elems.filterMap id := by
  induction elems with
  | nil =>
    intro t acc t' texts h
    simp only [extractTexts, Prod.mk.injEq, Option.some.injEq] at h
    simp [← h.2]
  | cons e rest ih =>
    intro t acc t' texts h
    simp only [extractTexts] at h
    split at h
    · simp at h
    · match e with
      | some s =>
        have := ih (t + 1) (s :: acc) t' texts h
        simpa [List.filterMap_cons, List.append_assoc] using this
      | none =>
        have := ih (t + 1) acc t' texts h
        simpa [List.filterMap_cons] using this

theorem processList_nil (oracle : PageOracle) (data : List (String × String)) :
    processList oracle data [] = data := rfl

theorem scrapeLoop_spec (oracle : PageOracle) (c : Ctx)
    (iter : List (String × String)) :
    ∀ (t : Nat) (data0 data : List (String × String)) (err : Option ScrapeErr),
      scrapeLoop oracle c t iter data0 = (data, err) →
      ∃ k, k ≤ iter.length ∧
        data = processList oracle data0 (iter.take k) ∧
        (err = none → k = iter.length) ∧
        (∀ e, err = some e → e = ScrapeErr.ctxErr ∧ k < iter.length) := by
  induction iter with
  | nil =>
    intro t data0 data err h
    simp only [scrapeLoop, Prod.mk.injEq] at h
    obtain ⟨rfl, rfl⟩ := h
    exact ⟨0, by simp, by simp [processList], fun _ => rfl, fun e he => by cases he⟩
  | cons p rest ih =>
    obtain ⟨key, sel⟩ := p
    intro t data0 data err h
    simp only [scrapeLoop] at h
    split at h
    · -- cancellation observed at this field's check
      rw [Prod.mk.injEq] at h
      obtain ⟨rfl, rfl⟩ := h
      exact ⟨0, by simp, by simp [processList], by simp,
        fun e he => by injection he with h2; exact ⟨h2.symm, by simp⟩⟩
    · split at h
      · -- empty selector
        next hsel =>
        obtain ⟨k, hk, hdata, hnone, hsome⟩ := ih (t + 1) (mapSet data0 key "") data err h
        refine ⟨k + 1, by simpa using Nat.succ_le_succ hk, ?_, ?_, ?_⟩
        · simpa [List.take_succ_cons, processList, fieldValue, hsel] using hdata
        · intro he; simp [hnone he]
        · intro e he; exact ⟨(hsome e he).1, by have := (hsome e he).2; simp; omega⟩
      · -- non-empty selector: query the oracle
        next hsel =>
        split at h
        · -- query error
          next helems =>
          obtain ⟨k, hk, hdata, hnone, hsome⟩ := ih (t + 1) (mapSet data0 key "") data err h
          refine ⟨k + 1, by simpa using Nat.succ_le_succ hk, ?_, ?_, ?_⟩
          · simpa [List.take_succ_cons, processList, fieldValue, hsel, helems] using hdata
          · intro he; simp [hnone he]
          · intro e he; exact ⟨(hsome e he).1, by have := (hsome e he).2; simp; omega⟩
        · next elems helems =>
          split at h
          · -- zero matches
            next hempty =>
            obtain ⟨k, hk, hdata, hnone, hsome⟩ := ih (t + 1) (mapSet data0 key "") data err h
            refine ⟨k + 1, by simpa using Nat.succ_le_succ hk, ?_, ?_, ?_⟩
            · simpa [List.take_succ_cons, processList, fieldValue, hsel, helems, hempty]
                using hdata
            · intro he; simp [hnone he]
            · intro e he; exact ⟨(hsome e he).1, by have := (hsome e he).2; simp; omega⟩
          · next hempty =>
            split at h
            · -- cancellation observed inside the element loop
              rw [Prod.mk.injEq] at h
              obtain ⟨rfl, rfl⟩ := h
              exact ⟨0, by simp, by simp [processList], by simp,
                fun e he => by injection he with h2; exact ⟨h2.symm, by simp⟩⟩
            · -- the whole field extracted
              next t' texts hext =>
              obtain ⟨k, hk, hdata, hnone, hsome⟩ :=
                ih t' (mapSet data0 key (String.intercalate "\n" texts)) data err h
              have htexts : texts = elems.filterMap id := by
                simpa using extractTexts_eq_some c elems (t + 1) [] t' texts hext
              refine ⟨k + 1, by simpa using Nat.succ_le_succ hk, ?_, ?_, ?_⟩
              · simpa [List.take_succ_cons, processList, fieldValue, hsel, helems, hempty,
                  htexts] using hdata
              · intro he; simp [hnone he]
              · intro e he; exact ⟨(hsome e he).1, by have := (hsome e he).2; simp; omega⟩

theorem fieldsOf_keys (oracle : PageOracle) (l : List (String × String)) :
    (fieldsOf oracle l).map Prod.fst = l.map Prod.fst := by
  simp [fieldsOf, List.map_map, Function.comp_def]

theorem processList_eq_append (oracle : PageOracle) (l : List (String × String)) :
    ∀ (data : List (String × String)),
      (∀ p ∈ l, mapGet data p.1 = none) → (l.map Prod.fst).Nodup →
      processList oracle data l = data ++ fieldsOf oracle l := by
  induction l with
  | nil => intro data _ _; simp [processList, fieldsOf]
  | cons p rest ih =>
    obtain ⟨key, sel⟩ := p
    intro data hfresh hnd
    simp only [List.map_cons, List.nodup_cons] at hnd
    have hset : mapSet data key (fieldValue oracle sel)
        = data ++ [(key, fieldValue oracle sel)] :=
      mapSet_of_get_none _ _ _ (hfresh (key, sel) (by simp))
    simp only [processList, hset]
    rw [ih]
    · simp [fieldsOf]
    · intro q hq
      have hkq : ¬ key = q.1 := by
        intro hEq
        exact hnd.1 (hEq ▸ List.mem_map_of_mem Prod.fst hq)
      rw [mapGet_append_of_none _ _ _ (hfresh q (by simp [hq]))]
      simp [mapGet, hkq]
    · exact hnd.2

theorem mapGet_fieldsOf (oracle : PageOracle) (l : List (String × String))
    (hnd : (l.map Prod.fst).Nodup) :
    ∀ p ∈ l, mapGet (fieldsOf oracle l) p.1 = some (fieldValue oracle p.2) := by
  induction l with
  | nil => intro p hp; cases hp
  | cons q rest ih =>
    obtain ⟨key, sel⟩ := q
    intro p hp
    simp only [List.map_cons, List.nodup_cons] at hnd
    rcases List.mem_cons.mp hp with hp | hp
    · subst hp; simp [fieldsOf, mapGet]
    · have hne : ¬ key = p.1 := by
        intro hEq
        exact hnd.1 (hEq ▸ List.mem_map_of_mem Prod.fst hp)
      simp only [fieldsOf, List.map_cons, mapGet, if_neg hne]
      exact ih hnd.2 p hp

/-! ## Case analysis of `Scrape`'s control flow -/

theorem Scrape_result_some (pool : PagePool) (oracle : PageOracle) (c : Ctx)
    (now : Nat) (task : ScraperTask) (iter : List (String × String))
    (r : ScrapingResult)
    (h : (Scrape pool oracle c now task iter).result = some r) :
    r.data = (scrapeLoop oracle c 1 iter []).1 ∧
    (Scrape pool oracle c now task iter).error = (scrapeLoop oracle c 1 iter []).2 := by
  rcases hloop : scrapeLoop oracle c 1 iter [] with ⟨data, err⟩
  by_cases hc : ctxDone c 0 = true
  · simp [Scrape, hc] at h
  · rcases hgp : getPage pool with ⟨gp, pool'⟩
    rcases gp with e | pg
    · simp [Scrape, hc, hgp] at h
    · by_cases hnav : oracle.navigateOk task.url = false
      · simp [Scrape, hc, hgp, hnav] at h
      · by_cases hwl : oracle.waitLoadOk = false
        · simp [Scrape, hc, hgp, hnav, hwl] at h
        · cases err <;>
          · simp_all [Scrape, hc, hgp, hnav, hwl, hloop, NewScrapingResult]
            rw [← h]

theorem Scrape_ctxErr_some (pool : PagePool) (oracle : PageOracle) (c : Ctx)
    (now : Nat) (task : ScraperTask) (iter : List (String × String))
    (h : (Scrape pool oracle c now task iter).error = some ScrapeErr.ctxErr) :
    ∃ r, (Scrape pool oracle c now task iter).result = some r := by
  rcases hloop : scrapeLoop oracle c 1 iter [] with ⟨data, err⟩
  by_cases hc : ctxDone c 0 = true
  · simp [Scrape, hc] at h
  · rcases hgp : getPage pool with ⟨gp, pool'⟩
    rcases gp with e | pg
    · simp [Scrape, hc, hgp] at h
    · by_cases hnav : oracle.navigateOk task.url = false
      · simp [Scrape, hc, hgp, hnav] at h
      · by_cases hwl : oracle.waitLoadOk = false
        · simp [Scrape, hc, hgp, hnav, hwl] at h
        · cases err <;> simp_all [Scrape, hc, hgp, hnav, hwl, hloop]

theorem Scrape_ok_some (pool : PagePool) (oracle : PageOracle) (c : Ctx)
    (now : Nat) (task : ScraperTask) (iter : List (String × String))
    (h : (Scrape pool oracle c now task iter).error = none) :
    ∃ r, (Scrape pool oracle c now task iter).result = some r := by
  rcases hloop : scrapeLoop oracle c 1 iter [] with ⟨data, err⟩
  by_cases hc : ctxDone c 0 = true
  · simp [Scrape, hc] at h
  · rcases hgp : getPage pool with ⟨gp, pool'⟩
    rcases gp with e | pg
    · simp [Scrape, hc, hgp] at h
    · by_cases hnav : oracle.navigateOk task.url = false
      · simp [Scrape, hc, hgp, hnav] at h
      · by_cases hwl : oracle.waitLoadOk = false
        · simp [Scrape, hc, hgp, hnav, hwl] at h
        · cases err <;> simp_all [Scrape, hc, hgp, hnav, hwl, hloop]

theorem poolGet_fields (p : PagePool) :
    (poolGet p).2.activePages = p.activePages ∧
    (poolGet p).2.maxPageCount = p.maxPageCount := by
  unfold poolGet
  split
  · exact ⟨rfl, rfl⟩
  · split <;> exact ⟨rfl, rfl⟩

theorem getPage_ok_active (r : PagePool) (pg : Nat) (r2 : PagePool)
    (h : getPage r = (Except.ok pg, r2)) : r2.activePages = r.activePages + 1 := by
  unfold getPage at h
  split at h
  · rw [Prod.mk.injEq] at h; cases h.1
  · rcases hpg : poolGet r with ⟨opg, r'⟩
    rw [hpg] at h
    have hf := poolGet_fields r
    rw [hpg] at hf
    rcases opg with _ | pg'
    · rw [Prod.mk.injEq] at h; cases h.1
    · rw [Prod.mk.injEq] at h
      rw [← h.2]
      simpa using hf.1

/-! ## Claim C2: cancellation during the selector loop returns the
partially filled result -/

/-- C2: whenever the overall deadline expires while `RodScraper.Scrape` is
iterating over the (field, selector) pairs, the call returns the partially
filled result together with the cancellation error `ctx.Err()`: the fields
processed before the expiry hold exactly their extracted values (in the
runtime's iteration order) and every unprocessed field is absent from the
result's mapping. -/
theorem scrape_cancel_keeps_processed (pool : PagePool) (oracle : PageOracle)
    (c : Ctx) (now : Nat) (task : ScraperTask) (iter : List (String × String))
    (hnd : (iter.map Prod.fst).Nodup)
    (herr : (Scrape pool oracle c now task iter).error = some ScrapeErr.ctxErr) :
    ∃ r, (Scrape pool oracle c now task iter).result = some r ∧
      ∃ k, k < iter.length ∧
        r.data = fieldsOf oracle (iter.take k) ∧
        ∀ p ∈ iter.drop k, mapGet r.data p.1 = none := by
  obtain ⟨r, hr⟩ := Scrape_ctxErr_some pool oracle c now task iter herr
  obtain ⟨hdata, herr2⟩ := Scrape_result_some pool oracle c now task iter r hr
  rcases hl : scrapeLoop oracle c 1 iter [] with ⟨data, err⟩
  rw [hl] at hdata herr2
  simp only at hdata herr2
  have herr3 : err = some ScrapeErr.ctxErr := herr2.symm.trans herr
  obtain ⟨k, _, hdd, _, hsome⟩ := scrapeLoop_spec oracle c iter 1 [] data err hl
  obtain ⟨-, hklt⟩ := hsome _ herr3
  have hndk : ((iter.take k).map Prod.fst).Nodup := by
    rw [List.map_take]
    exact (List.take_sublist _ _).nodup hnd
  have hproc : processList oracle [] (iter.take k) = fieldsOf oracle (iter.take k) := by
    simpa using processList_eq_append oracle (iter.take k) [] (fun p _ => rfl) hndk
  refine ⟨r, hr, k, hklt, by rw [hdata, hdd, hproc], ?_⟩
  intro p hp
  rw [hdata, hdd, hproc, mapGet_eq_none_iff, fieldsOf_keys, List.map_take]
  have hnd2 := hnd
  rw [← List.take_append_drop k (iter.map Prod.fst), List.nodup_append] at hnd2
  have hmem : p.1 ∈ (iter.map Prod.fst).drop k := by
    rw [← List.map_drop]
    exact List.mem_map_of_mem Prod.fst hp
  exact fun hcon => hnd2.2.2 hcon hmem

def w2pool : PagePool := NewRodScraper 10 true

def w2oracle : PageOracle :=
  { navigateOk := fun _ => true, waitLoadOk := true, elements := fun _ => some [] }

def w2task : ScraperTask :=
  { url := "u", type := "t", name := "n", selectors := [("title", ""), ("price", "")] }

/-- Witness for C2: a run of two empty-selector fields cancelled at the
second field's check returns "title" populated and "price" absent. -/
theorem scrape_cancel_keeps_processed_witness :
    ((w2task.selectors.map Prod.fst).Nodup ∧
      (Scrape w2pool w2oracle ⟨some 2⟩ 0 w2task w2task.selectors).error
        = some ScrapeErr.ctxErr) ∧
    (∃ r, (Scrape w2pool w2oracle ⟨some 2⟩ 0 w2task w2task.selectors).result = some r ∧
      ∃ k, k < w2task.selectors.length ∧
        r.data = fieldsOf w2oracle (w2task.selectors.take k) ∧
        ∀ p ∈ w2task.selectors.drop k, mapGet r.data p.1 = none) :=
  ⟨⟨by decide, rfl⟩,
    scrape_cancel_keeps_processed w2pool w2oracle ⟨some 2⟩ 0 w2task w2task.selectors
      (by decide) rfl⟩

/-! ## Claim C7: per-field extraction semantics without cancellation -/

/-- C7: in a run that completes without cancellation, every field of the
descriptor is bound in the result: an empty selector yields the empty
string (no query is performed), a query error or zero matches yields the
empty string non-fatally, and otherwise the value is the newline-joined
concatenation of the texts of the matched elements whose extraction
succeeded, in match order, failing elements contributing nothing. -/
theorem scrape_ok_field_semantics (pool : PagePool) (oracle : PageOracle)
    (c : Ctx) (now : Nat) (task : ScraperTask) (iter : List (String × String))
    (hnd : (iter.map Prod.fst).Nodup)
    (hok : (Scrape pool oracle c now task iter).error = none) :
    ∃ r, (Scrape pool oracle c now task iter).result = some r ∧
      ∀ p ∈ iter,
        mapGet r.data p.1 = some (fieldValue oracle p.2) ∧
        (p.2 = "" → fieldValue oracle p.2 = "") ∧
        (oracle.elements p.2 = none → fieldValue oracle p.2 = "") ∧
        (oracle.elements p.2 = some [] → fieldValue oracle p.2 = "") ∧
        (∀ elems, p.2 ≠ "" → oracle.elements p.2 = some elems → elems ≠ [] →
          fieldValue oracle p.2 = String.intercalate "\n" (elems.filterMap id)) := by
  obtain ⟨r, hr⟩ := Scrape_ok_some pool oracle c now task iter hok
  obtain ⟨hdata, herr2⟩ := Scrape_result_some pool oracle c now task iter r hr
  rcases hl : scrapeLoop oracle c 1 iter [] with ⟨data, err⟩
  rw [hl] at hdata herr2
  simp only at hdata herr2
  have herr3 : err = none := herr2.symm.trans hok
  subst herr3
  obtain ⟨k, _, hdd, hnone, _⟩ := scrapeLoop_spec oracle c iter 1 [] data none hl
  rw [hnone rfl, List.take_length] at hdd
  have hproc : processList oracle [] iter = fieldsOf oracle iter := by
    simpa using processList_eq_append oracle iter [] (fun p _ => rfl) hnd
  refine ⟨r, hr, fun p hp => ⟨?_, ?_, ?_, ?_, ?_⟩⟩
  · rw [hdata, hdd, hproc]
    exact mapGet_fieldsOf oracle iter hnd p hp
  · intro h0; simp [fieldValue, h0]
  · intro hel
    by_cases h0 : p.2 = "" <;> simp [fieldValue, h0, hel]
  · intro hel
    by_cases h0 : p.2 = "" <;> simp [fieldValue, h0, hel]
  · intro elems h0 hel hne
    have : elems.isEmpty = false := by
      cases elems
      · exact absurd rfl hne
      · rfl
    simp [fieldValue, h0, hel, this]

def w7oracle : PageOracle :=
  { navigateOk := fun _ => true, waitLoadOk := true
    elements := fun s =>
      if s = "h1" then some [some "Hello", none, some "World"]
      else if s = "bad" then none
      else some [] }

def w7task : ScraperTask :=
  { url := "u", type := "t", name := "n"
    selectors := [("title", "h1"), ("missing", "bad"), ("empty", ""), ("zero", "z")] }

/-- Witness for C7: a completed run where one selector matches two
extractable elements and one failing one, one selector errors, one is
empty and one matches nothing. -/
theorem scrape_ok_field_semantics_witness :
    ((w7task.selectors.map Prod.fst).Nodup ∧
      (Scrape w2pool w7oracle ⟨none⟩ 0 w7task w7task.selectors).error = none) ∧
    (∃ r, (Scrape w2pool w7oracle ⟨none⟩ 0 w7task w7task.selectors).result = some r ∧
      ∀ p ∈ w7task.selectors,
        mapGet r.data p.1 = some (fieldValue w7oracle p.2) ∧
        (p.2 = "" → fieldValue w7oracle p.2 = "") ∧
        (w7oracle.elements p.2 = none → fieldValue w7oracle p.2 = "") ∧
        (w7oracle.elements p.2 = some [] → fieldValue w7oracle p.2 = "") ∧
        (∀ elems, p.2 ≠ "" → w7oracle.elements p.2 = some elems → elems ≠ [] →
          fieldValue w7oracle p.2 = String.intercalate "\n" (elems.filterMap id))) :=
  ⟨⟨by decide, rfl⟩,
    scrape_ok_field_semantics w2pool w7oracle ⟨none⟩ 0 w7task w7task.selectors
      (by decide) rfl⟩

/-! ## Claim C6: processing order of the descriptor's fields

The Go loop ranges over the `Selectors` map, whose iteration order is
unspecified; the pipeline therefore processes the pairs in the runtime's
map-iteration order, which need not be the order the descriptor presents
its fields in. -/

def c6pool : PagePool := NewRodScraper 10 true

def c6oracle : PageOracle :=
  { navigateOk := fun _ => true, waitLoadOk := true, elements := fun _ => some [] }

def c6task : ScraperTask :=
  { url := "u", type := "t", name := "n", selectors := [("a", ""), ("b", "")] }

/-- Counterexample to C6 as stated: the runtime may legally iterate the
two-field selector map of `c6task` in the order [("b",...), ("a",...)]
(a permutation of the descriptor's entries); a run cancelled after the
first processed field then has "b" — the descriptor's SECOND field —
populated and the descriptor's first field "a" absent, so fields are not
populated in the descriptor's field order up to the cancellation point. -/
theorem scrape_order_counterexample :
    ([("b", ""), ("a", "")] : List (String × String)).Perm c6task.selectors ∧
    c6task.selectors.map Prod.fst = ["a", "b"] ∧
    ∃ r, (Scrape c6pool c6oracle ⟨some 2⟩ 0 c6task [("b", ""), ("a", "")]).result
        = some r ∧
      (Scrape c6pool c6oracle ⟨some 2⟩ 0 c6task [("b", ""), ("a", "")]).error
        = some ScrapeErr.ctxErr ∧
      mapGet r.data "b" = some "" ∧ mapGet r.data "a" = none := by
  exact ⟨by decide, by decide, ⟨_, rfl, rfl, rfl, rfl⟩⟩

/-- C6 amended: the pipeline processes the (field, selector) pairs in the
runtime's map-iteration order (an unspecified permutation of the
descriptor's entries), so within one result the populated fields are
exactly a prefix of that iteration order — all of it when no cancellation
occurred. -/
theorem scrape_populates_in_iteration_order (pool : PagePool) (oracle : PageOracle)
    (c : Ctx) (now : Nat) (task : ScraperTask) (iter : List (String × String))
    (r : ScrapingResult)
    (_hperm : iter.Perm task.selectors)
    (hnd : (iter.map Prod.fst).Nodup)
    (hr : (Scrape pool oracle c now task iter).result = some r) :
    ∃ k, k ≤ iter.length ∧
      r.data.map Prod.fst = (iter.map Prod.fst).take k ∧
      ((Scrape pool oracle c now task iter).error = none → k = iter.length) := by
  obtain ⟨hdata, herr2⟩ := Scrape_result_some pool oracle c now task iter r hr
  rcases hl : scrapeLoop oracle c 1 iter [] with ⟨data, err⟩
  rw [hl] at hdata herr2
  simp only at hdata herr2
  obtain ⟨k, hk, hdd, hnone, _⟩ := scrapeLoop_spec oracle c iter 1 [] data err hl
  have hndk : ((iter.take k).map Prod.fst).Nodup := by
    rw [List.map_take]
    exact (List.take_sublist _ _).nodup hnd
  have hproc : processList oracle [] (iter.take k) = fieldsOf oracle (iter.take k) := by
    simpa using processList_eq_append oracle (iter.take k) [] (fun p _ => rfl) hndk
  refine ⟨k, hk, ?_, fun he => hnone (herr2.symm.trans he)⟩
  rw [hdata, hdd, hproc, fieldsOf_keys, List.map_take]

/-- Witness for the amended C6 at a concrete reversed iteration order. -/
theorem scrape_populates_in_iteration_order_witness :
    (([("b", ""), ("a", "")] : List (String × String)).Perm c6task.selectors ∧
      (([("b", ""), ("a", "")] : List (String × String)).map Prod.fst).Nodup ∧
      (Scrape c6pool c6oracle ⟨some 2⟩ 0 c6task [("b", ""), ("a", "")]).result
        = some (NewScrapingResult "u" "t" "n" [("b", "")] 0)) ∧
    (∃ k, k ≤ ([("b", ""), ("a", "")] : List (String × String)).length ∧
      (NewScrapingResult "u" "t" "n" [("b", "")] 0).data.map Prod.fst
        = (([("b", ""), ("a", "")] : List (String × String)).map Prod.fst).take k ∧
      ((Scrape c6pool c6oracle ⟨some 2⟩ 0 c6task [("b", ""), ("a", "")]).error = none →
        k = ([("b", ""), ("a", "")] : List (String × String)).length)) :=
  ⟨⟨by decide, by decide, rfl⟩,
    scrape_populates_in_iteration_order c6pool c6oracle ⟨some 2⟩ 0 c6task
      [("b", ""), ("a", "")] (NewScrapingResult "u" "t" "n" [("b", "")] 0)
      (by decide) (by decide) rfl⟩

/-! ## Claim C1: what `TaskToScrape.Execute` returns -/

def c1pool : PagePool := NewRodScraper 10 true

def c1oracle : PageOracle :=
  { navigateOk := fun _ => true, waitLoadOk := true
    elements := fun s => if s = "h1" then some [some "Hello"] else some [some "5"] }

def c1task : ScraperTask :=
  { url := "u", type := "t", name := "n"
    selectors := [("title", "h1"), ("price", "span.price")] }

/-- Counterexample to C1 as stated: under a caller token that fires right
after the "title" field resolves, the pipeline returns a partial result
(with "title" extracted) paired with the cancellation error, but `Execute`
hits its `if err != nil` branch and returns a nil result with that error —
the partial result is dropped, not returned unchanged. -/
theorem execute_drops_cut_result :
    (Scrape c1pool c1oracle (ctxCombine ⟨some 3⟩ ⟨none⟩) 0 c1task
        c1task.selectors).error = some ScrapeErr.ctxErr ∧
    (∃ r, (Scrape c1pool c1oracle (ctxCombine ⟨some 3⟩ ⟨none⟩) 0 c1task
        c1task.selectors).result = some r ∧ mapGet r.data "title" = some "Hello") ∧
    Execute c1pool c1oracle ⟨some 3⟩ ⟨none⟩ 0 c1task c1task.selectors
      = (none, some ScrapeErr.ctxErr) := by
  exact ⟨rfl, ⟨_, rfl, rfl⟩, rfl⟩

/-- C1 amended: `Execute` delegates to `Scrape` under the combined
deadline (caller token intersected with the 30-second task budget); when
the pipeline's error is nil it returns the pipeline's result unchanged,
and when the error is non-nil it returns that error unchanged but a nil
result — any partial result carried next to the error is discarded. -/
theorem execute_delegation (pool : PagePool) (oracle : PageOracle)
    (parent budget : Ctx) (now : Nat) (task : ScraperTask)
    (iter : List (String × String)) :
    ((Scrape pool oracle (ctxCombine parent budget) now task iter).error = none →
      Execute pool oracle parent budget now task iter =
        ((Scrape pool oracle (ctxCombine parent budget) now task iter).result, none)) ∧
    (∀ e, (Scrape pool oracle (ctxCombine parent budget) now task iter).error = some e →
      Execute pool oracle parent budget now task iter = (none, some e)) := by
  constructor
  · intro h
    simp [Execute, h]
  · intro e h
    simp [Execute, h]

/-- Witness for the amended C1, reusing the cancelled run of the
counterexample: the error comes back unchanged while the result is nil. -/
theorem execute_delegation_witness :
    (Scrape c1pool c1oracle (ctxCombine ⟨some 3⟩ ⟨none⟩) 0 c1task
        c1task.selectors).error = some ScrapeErr.ctxErr ∧
    Execute c1pool c1oracle ⟨some 3⟩ ⟨none⟩ 0 c1task c1task.selectors
      = (none, some ScrapeErr.ctxErr) :=
  ⟨rfl,
    (execute_delegation c1pool c1oracle ⟨some 3⟩ ⟨none⟩ 0 c1task c1task.selectors).2
      ScrapeErr.ctxErr rfl⟩

/-! ## Claim C3: the page pool never exceeds its ceiling -/

theorem getPage_preserves_bound (r : PagePool)
    (h : r.activePages ≤ r.maxPageCount) :
    (getPage r).2.activePages ≤ (getPage r).2.maxPageCount := by
  unfold getPage
  split
  · exact h
  · next hlt =>
    rcases hpg : poolGet r with ⟨opg, r'⟩
    have hf := poolGet_fields r
    rw [hpg] at hf
    simp only at hf
    rcases opg with _ | pg
    · simpa [hf.1, hf.2] using h
    · simp only
      rw [hf.1, hf.2]
      omega

/-- C3: in every pool state reachable from a fresh `RodScraper` by
interleaved `getPage` / `releasePage` calls, the active page count never
exceeds the ceiling, and a `getPage` issued while the count equals the
ceiling returns the capacity error with the state unchanged (no increment,
no blocking — the call returns at once). -/
theorem pool_never_exceeds_ceiling (maxPages : Int) (newOk : Bool) (s : PagePool)
    (h : PoolReach (NewRodScraper maxPages newOk) s) :
    s.activePages ≤ s.maxPageCount ∧
    (s.activePages = s.maxPageCount →
      getPage s = (Except.error PoolErr.capacity, s)) := by
  refine ⟨?_, fun heq => ?_⟩
  · induction h with
    | refl =>
      simp only [NewRodScraper]
      split <;> omega
    | tail hab hstep ih =>
      cases hstep with
      | get => exact getPage_preserves_bound _ ih
      | release pg =>
        simp only [releasePage]
        omega
  · unfold getPage
    rw [if_pos (le_of_eq heq.symm)]

/-- Witness for C3 at the pool state reached by one successful acquire on
a ceiling-1 pool: the count sits at the ceiling and the next acquire is
rejected with the state unchanged. -/
theorem pool_never_exceeds_ceiling_witness :
    (getPage (NewRodScraper 1 true)).2.activePages
      ≤ (getPage (NewRodScraper 1 true)).2.maxPageCount ∧
    ((getPage (NewRodScraper 1 true)).2.activePages
        = (getPage (NewRodScraper 1 true)).2.maxPageCount →
      getPage (getPage (NewRodScraper 1 true)).2
        = (Except.error PoolErr.capacity, (getPage (NewRodScraper 1 true)).2)) :=
  pool_never_exceeds_ceiling 1 true _
    (Relation.ReflTransGen.single (PStep.get (NewRodScraper 1 true)))

/-! ## Claim C9: `getPage` changes the count exactly when it hands out a page -/

/-- C9: `getPage` is atomic with respect to the count on failure — on any
error (ceiling reached or page construction failed) the active count is
unchanged — and it increments the count by exactly one if and only if it
returns a page. -/
theorem getPage_count_iff (r : PagePool) :
    (∀ e, (getPage r).1 = Except.error e → (getPage r).2.activePages = r.activePages) ∧
    ((∃ pg, (getPage r).1 = Except.ok pg) ↔
      (getPage r).2.activePages = r.activePages + 1) := by
  unfold getPage
  split
  · refine ⟨fun e _ => rfl, ?_, ?_⟩
    · rintro ⟨pg, hpg⟩; cases hpg
    · intro h
      have h2 : r.activePages = r.activePages + 1 := h
      omega
  · rcases hpg : poolGet r with ⟨opg, r'⟩
    have hf := poolGet_fields r
    rw [hpg] at hf
    simp only at hf
    rcases opg with _ | pg
    · simp only [hpg]
      refine ⟨fun e _ => hf.1, ?_, ?_⟩
      · rintro ⟨pg, hpg'⟩; cases hpg'
      · intro h
        have h2 : r'.activePages = r.activePages + 1 := h
        rw [hf.1] at h2
        omega
    · simp only [hpg]
      refine ⟨fun e he => (nomatch he), ?_, ?_⟩
      · intro _
        show r'.activePages + 1 = r.activePages + 1
        omega
      · intro _; exact ⟨pg, rfl⟩

/-- Witness for C9: a pool whose page constructor fails yields an error
from `getPage` with the count untouched. -/
theorem getPage_count_iff_witness :
    (getPage (NewRodScraper 1 false)).2.activePages
      = (NewRodScraper 1 false).activePages :=
  (getPage_count_iff (NewRodScraper 1 false)).1 PoolErr.newFailed rfl

/-! ## Claim C8: the page is released exactly once on every exit path -/

/-- C8: in every `Scrape` run that acquires a page, the page is released
exactly once — whatever the exit path (loop cancellation, navigation
failure, load failure, or completion) — and the pool's active count after
the call equals its value before the call. -/
theorem scrape_release_balanced (pool : PagePool) (oracle : PageOracle)
    (c : Ctx) (now : Nat) (task : ScraperTask) (iter : List (String × String))
    (h : (Scrape pool oracle c now task iter).acquires = 1) :
    (Scrape pool oracle c now task iter).releases = 1 ∧
    (Scrape pool oracle c now task iter).pool.activePages = pool.activePages := by
  by_cases hc : ctxDone c 0 = true
  · simp [Scrape, hc] at h
  · rcases hgp : getPage pool with ⟨gp, pool'⟩
    rcases gp with e | pg
    · simp [Scrape, hc, hgp] at h
    · have hact : pool'.activePages = pool.activePages + 1 :=
        getPage_ok_active pool pg pool' hgp
      rcases hloop : scrapeLoop oracle c 1 iter [] with ⟨data, err⟩
      by_cases hnav : oracle.navigateOk task.url = false
      · refine ⟨by simp [Scrape, hc, hgp, hnav], ?_⟩
        simp [Scrape, hc, hgp, hnav, releasePage]
        omega
      · by_cases hwl : oracle.waitLoadOk = false
        · refine ⟨by simp [Scrape, hc, hgp, hnav, hwl], ?_⟩
          simp [Scrape, hc, hgp, hnav, hwl, releasePage]
          omega
        · cases err
          · refine ⟨by simp [Scrape, hc, hgp, hnav, hwl, hloop], ?_⟩
            simp [Scrape, hc, hgp, hnav, hwl, hloop, releasePage]
            omega
          · refine ⟨by simp [Scrape, hc, hgp, hnav, hwl, hloop], ?_⟩
            simp [Scrape, hc, hgp, hnav, hwl, hloop, releasePage]
            omega

def w8task : ScraperTask := { url := "u", type := "t", name := "n", selectors := [] }

/-- Witness for C8: a completed run on a fresh pool acquires once,
releases once and restores the active count. -/
theorem scrape_release_balanced_witness :
    (Scrape (NewRodScraper 10 true) w2oracle ⟨none⟩ 0 w8task []).releases = 1 ∧
    (Scrape (NewRodScraper 10 true) w2oracle ⟨none⟩ 0 w8task []).pool.activePages
      = (NewRodScraper 10 true).activePages :=
  scrape_release_balanced (NewRodScraper 10 true) w2oracle ⟨none⟩ 0 w8task [] rfl

/-! ## Worker-pool invariant: the results stream closes once, after all
workers exited -/

/-- Invariant of the worker-pool system: `close(p.results)` has happened
exactly when `Stop` reached its final line, and at that point every worker
had already exited. -/
def WInv (s : Conf) : Prop :=
  (s.resultsCloseCount = if s.stopPhase = StopPhase.stFinished then 1 else 0) ∧
  (s.resultsClosed = true ↔ s.stopPhase = StopPhase.stFinished) ∧
  (s.stopPhase = StopPhase.stFinished → ∀ w ∈ s.workers, w = WPhase.done)

theorem WInv_initConf (n cap : Nat) (ts : List Tsk) : WInv (initConf n cap ts) := by
  refine ⟨by simp [initConf], by simp [initConf], fun hph => ?_⟩
  exact absurd hph (by simp [initConf])

theorem WInv_step (s s' : Conf) (hst : WStep s s') (hi : WInv s) : WInv s' := by
  obtain ⟨h1, h2, h3⟩ := hi
  cases hst with
  | wCancel i hw hc =>
    refine ⟨h1, h2, fun hph => ?_⟩
    have := h3 hph WPhase.running (List.getElem?_mem hw)
    cases this
  | wClosed i hw hq ht =>
    refine ⟨h1, h2, fun hph => ?_⟩
    have := h3 hph WPhase.running (List.getElem?_mem hw)
    cases this
  | wTakeOk i t rest hw hq hok =>
    refine ⟨h1, h2, fun hph => ?_⟩
    have := h3 hph WPhase.running (List.getElem?_mem hw)
    cases this
  | wTakeErr i t rest hw hq hok =>
    exact ⟨h1, h2, fun hph => h3 hph⟩
  | wSend i r hw hroom =>
    refine ⟨h1, h2, fun hph => ?_⟩
    have := h3 hph (WPhase.sending r) (List.getElem?_mem hw)
    cases this
  | wSendCancel i r hw hc =>
    refine ⟨h1, h2, fun hph => ?_⟩
    have := h3 hph (WPhase.sending r) (List.getElem?_mem hw)
    cases this
  | extCancel =>
    exact ⟨h1, h2, fun hph => h3 hph⟩
  | stopBegin hp hs =>
    rw [hp] at h1 h2
    refine ⟨?_, ?_, fun hph => ?_⟩
    · simpa using h1
    · simpa using h2
    · have : StopPhase.stChecked = StopPhase.stFinished := hph
      cases this
  | stopEarlyStep hp hs =>
    rw [hp] at h1 h2
    refine ⟨?_, ?_, fun hph => ?_⟩
    · simpa using h1
    · simpa using h2
    · have : StopPhase.stEarly = StopPhase.stFinished := hph
      cases this
  | stopCancel hp =>
    rw [hp] at h1 h2
    refine ⟨?_, ?_, fun hph => ?_⟩
    · simpa using h1
    · simpa using h2
    · have : StopPhase.stCancelled = StopPhase.stFinished := hph
      cases this
  | stopCloseTasks hp =>
    rw [hp] at h1 h2
    refine ⟨?_, ?_, fun hph => ?_⟩
    · simpa using h1
    · simpa using h2
    · have : StopPhase.stClosedTasks = StopPhase.stFinished := hph
      cases this
  | stopFinish hp hall =>
    rw [hp] at h1
    refine ⟨?_, by simp, fun _ => hall⟩
    have h0 : s.resultsCloseCount = 0 := by simpa using h1
    simp [h0]

/-! ## Claim C4: what `Stop` guarantees -/

def c4t : Tsk := { id := 0, ok := true }

def c4c0 : Conf := initConf 1 1 [c4t]

def c4fin : Conf :=
  { numWorkers := 1
    queueCap := 1
    started := false
    ctxCancelled := true
    tasksClosed := true
    queue := [c4t]
    resultsBuf := []
    resultsClosed := true
    resultsCloseCount := 1
    workers := [WPhase.done]
    stopPhase := .stFinished
    executed := [] }

/-- Counterexample to C4 as stated: from a started one-worker pool with
one queued task, `Stop` cancels the context first; the worker's `select`
may then take the `ctx.Done()` branch and exit without draining the queue
(Go's `select` picks any ready branch), and `Stop` completes — the run
ends with the results stream closed, the queued task still in the (closed)
task channel and nothing ever executed, so workers do not drain all tasks
queued at the moment of stop. -/
theorem stop_leaves_queued_task_counterexample :
    WReach c4c0 c4fin ∧ c4fin.stopPhase = StopPhase.stFinished ∧
    c4fin.resultsClosed = true ∧ c4fin.queue = [c4t] ∧ c4fin.executed = [] := by
  refine ⟨?_, rfl, rfl, rfl, rfl⟩
  refine Relation.ReflTransGen.head (WStep.stopBegin c4c0 rfl rfl) ?_
  refine Relation.ReflTransGen.head (WStep.stopCancel _ rfl) ?_
  refine Relation.ReflTransGen.head (WStep.wCancel _ 0 rfl rfl) ?_
  refine Relation.ReflTransGen.head (WStep.stopCloseTasks _ rfl) ?_
  refine Relation.ReflTransGen.head (WStep.stopFinish _ rfl (by decide)) ?_
  exact Relation.ReflTransGen.refl

/-- C4 amended: `stop()` cancels the pool's token and closes the input
queue, and workers exit either on observing the cancellation (possibly
leaving still-queued tasks undrained) or on finding the queue closed and
drained; `stop()` waits for all workers — in every reachable
configuration the output stream is closed at most once, and once it is
closed every worker has exited and the close happened exactly once. -/
theorem stop_closes_results_after_workers (n cap : Nat) (ts : List Tsk) (s : Conf)
    (h : WReach (initConf n cap ts) s) :
    s.resultsCloseCount ≤ 1 ∧
    (s.resultsClosed = true →
      s.resultsCloseCount = 1 ∧ ∀ w ∈ s.workers, w = WPhase.done) ∧
    (s.resultsClosed = false → s.resultsCloseCount = 0) := by
  have hinv : WInv s := by
    induction h with
    | refl => exact WInv_initConf n cap ts
    | tail hab hstep ih => exact WInv_step _ _ hstep ih
  obtain ⟨h1, h2, h3⟩ := hinv
  refine ⟨by split at h1 <;> omega, fun hcl => ?_, fun hcl => ?_⟩
  · have hph := h2.mp hcl
    rw [if_pos hph] at h1
    exact ⟨h1, h3 hph⟩
  · have hph : ¬ s.stopPhase = StopPhase.stFinished := by
      intro hph
      rw [h2.mpr hph] at hcl
      cases hcl
    rw [if_neg hph] at h1
    exact h1

/-- Witness for the amended C4 at the (trivially reachable) initial
configuration of a started one-worker pool. -/
theorem stop_closes_results_after_workers_witness :
    (initConf 1 1 []).resultsCloseCount ≤ 1 ∧
    ((initConf 1 1 []).resultsClosed = true →
      (initConf 1 1 []).resultsCloseCount = 1 ∧
      ∀ w ∈ (initConf 1 1 []).workers, w = WPhase.done) ∧
    ((initConf 1 1 []).resultsClosed = false →
      (initConf 1 1 []).resultsCloseCount = 0) :=
  stop_closes_results_after_workers 1 1 [] (initConf 1 1 [])
    Relation.ReflTransGen.refl

/-! ## Claim C5: double stop and double start -/

/-- C5: a second consecutive `Stop` is a no-op — after any `Stop` has run
its started-flag check, a further `Stop` fails that check and returns with
the state untouched (so nothing is cancelled, closed or waited on again) —
and a `Start` on a running pool returns the configuration error with the
running state unchanged. -/
theorem pool_double_stop_start (s : Conf) (pc : Bool) :
    stopCheck (stopCheck s).2 = (false, (stopCheck s).2) ∧
    (s.started = true → startFn s pc = (some "pool already started", s)) := by
  constructor
  · unfold stopCheck
    by_cases h : s.started <;> simp [h]
  · intro h
    simp [startFn, h]

def w5conf : Conf := initConf 1 1 []

/-- Witness for C5 on a started one-worker pool. -/
theorem pool_double_stop_start_witness :
    stopCheck (stopCheck w5conf).2 = (false, (stopCheck w5conf).2) ∧
    startFn w5conf true = (some "pool already started", w5conf) :=
  ⟨(pool_double_stop_start w5conf true).1,
    (pool_double_stop_start w5conf true).2 rfl⟩

/-! ## Claim C10: stop before start -/

/-- C10: calling `Stop` on a pool that was never started returns at the
started-flag check with the state unchanged: the token is not cancelled,
the task queue is not closed and the results stream is not closed — a
consumer waiting on the results stream is not signalled end-of-results. -/
theorem stop_before_start_noop (nw cap : Int) (s : Conf)
    (h : NewPool nw cap = Except.ok s) :
    stopCheck s = (false, s) ∧ s.ctxCancelled = false ∧
    s.tasksClosed = false ∧ s.resultsClosed = false := by
  unfold NewPool at h
  split at h
  · cases h
  · rw [Except.ok.injEq] at h
    subst h
    exact ⟨rfl, rfl, rfl, rfl⟩

def w10conf : Conf :=
  { numWorkers := 1
    queueCap := 1
    started := false
    ctxCancelled := false
    tasksClosed := false
    queue := []
    resultsBuf := []
    resultsClosed := false
    resultsCloseCount := 0
    workers := []
    stopPhase := .stIdle
    executed := [] }

/-- Witness for C10 on a freshly constructed 1-worker pool. -/
theorem stop_before_start_noop_witness :
    stopCheck w10conf = (false, w10conf) ∧ w10conf.ctxCancelled = false ∧
    w10conf.tasksClosed = false ∧ w10conf.resultsClosed = false :=
  stop_before_start_noop 1 1 w10conf rfl

end Kult
